import Mathlib

/-!
# Verification of the aviator-fun crash-game backend

A shallow embedding, in Lean 4, of the parts of the `aviator-fun` Go backend
that its specification makes claims about:

* the provably-fair primitive (`internal/game/provably_fair.go`):
  HMAC-SHA256, the crash-multiplier mapping, and the round verifier;
* the Mines engine (`MinesEngine` in the cache/game package): mine-position
  derivation, payout computation, and the tile-click / cashout handlers;
* the crash round engine (`Manager.processBet` / `Manager.processCashout`);
* the Plinko multiplier table and lookup (`PlinkoEngine.getMultiplier`);
* the JSON projections of `RoundState` and `MinesGameState` implied by the
  Go struct tags (fields tagged `json:"-"` are omitted from the wire form).

Modelling conventions:

* Go byte strings are `List ℕ` (each entry a byte value); Go identifiers and
  message strings at the engine level are Lean `String`s.
* Go `float64` arithmetic is modelled exactly over `ℚ`; the Go idiom
  `float64(int(x*100))/100` (truncate to 2 decimals) is `trunc2`, with the
  `int` conversion truncating toward zero as in Go.
* Redis is modelled as the part of the store the functions touch: a bets table
  `String → String → Option ActiveBet` keyed by round and bet id, and a
  balance map `String → ℚ`.  Store-transport errors are not modelled; the
  claims under study are about the logic between a successful load and a
  successful save.
* Wall-clock inputs (`time.Now()`) become explicit `now : ℕ` parameters.

SHA-256 and HMAC are embedded in full (Go's `crypto/sha256`, `crypto/hmac`)
so that hash-dependent claims can be settled on concrete inputs; two FIPS
known-answer vectors are proved below by kernel evaluation.
-/

set_option linter.unusedVariables false

namespace Aviator

/-! ## Bytes and words -/

/-- Big-endian byte-list to natural number (as `big.Int.SetString` base 16 on
the hex encoding of the bytes). -/
def bytesToBE (bs : List ℕ) : ℕ :=
  bs.foldl (fun acc b => acc * 256 + b) 0

/-- One 32-bit word to its four big-endian bytes. -/
def wordToBytesBE (w : ℕ) : List ℕ :=
  [w / 2 ^ 24 % 256, w / 2 ^ 16 % 256, w / 2 ^ 8 % 256, w % 256]

/-- Right rotation of a 32-bit word. -/
def rotr32 (w n : ℕ) : ℕ :=
  (w >>> n ||| w <<< (32 - n)) % 2 ^ 32

/-! ## SHA-256 (Go `crypto/sha256`)

The compression function follows FIPS 180-4.  All words are naturals kept
below `2 ^ 32` by explicit reduction. -/

def sigma0 (x : ℕ) : ℕ := rotr32 x 7 ^^^ rotr32 x 18 ^^^ x >>> 3
def sigma1 (x : ℕ) : ℕ := rotr32 x 17 ^^^ rotr32 x 19 ^^^ x >>> 10
def bigSigma0 (x : ℕ) : ℕ := rotr32 x 2 ^^^ rotr32 x 13 ^^^ rotr32 x 22
def bigSigma1 (x : ℕ) : ℕ := rotr32 x 6 ^^^ rotr32 x 11 ^^^ rotr32 x 25

/-- The SHA-256 round constants, in decimal (the fractional parts of the
cube roots of the first 64 primes, per FIPS 180-4). -/
def shaK : List ℕ :=
  [1116352408, 1899447441, 3049323471, 3921009573, 961987163, 1508970993,
   2453635748, 2870763221, 3624381080, 310598401, 607225278, 1426881987,
   1925078388, 2162078206, 2614888103, 3248222580, 3835390401, 4022224774,
   264347078, 604807628, 770255983, 1249150122, 1555081692, 1996064986,
   2554220882, 2821834349, 2952996808, 3210313671, 3336571891, 3584528711,
   113926993, 338241895, 666307205, 773529912, 1294757372, 1396182291,
   1695183700, 1986661051, 2177026350, 2456956037, 2730485921, 2820302411,
   3259730800, 3345764771, 3516065817, 3600352804, 4094571909, 275423344,
   430227734, 506948616, 659060556, 883997877, 958139571, 1322822218,
   1537002063, 1747873779, 1955562222, 2024104815, 2227730452, 2361852424,
   2428436474, 2756734187, 3204031479, 3329325298]

/-- The SHA-256 initial hash value, in decimal (the fractional parts of
the square roots of the first 8 primes, per FIPS 180-4). -/
def shaH0 : List ℕ :=
  [1779033703, 3144134277, 1013904242, 2773480762, 1359893119, 2600822924,
   528734635, 1541459225]

/-- Group bytes into 32-bit big-endian words. -/
def bytesToWords : List ℕ → List ℕ
  | a :: b :: c :: d :: rest => (a * 2 ^ 24 + b * 2 ^ 16 + c * 2 ^ 8 + d) :: bytesToWords rest
  | _ => []

/-- The message schedule, generated with a sliding window of the last 16
words; `w0` is the oldest, and the word produced 16 positions after `w0` is
`sigma1 w14 + w9 + sigma0 w1 + w0 (mod 2 ^ 32)` — the FIPS recurrence
`W t = sigma1 (W (t-2)) + W (t-7) + sigma0 (W (t-15)) + W (t-16)`.
Written with a bare `Nat.rec` so that the kernel can evaluate it. -/
def scheduleWin (n : ℕ) :
    ℕ → ℕ → ℕ → ℕ → ℕ → ℕ → ℕ → ℕ → ℕ → ℕ → ℕ → ℕ → ℕ → ℕ → ℕ → ℕ → List ℕ :=
  Nat.rec
    (motive := fun _ => ℕ → ℕ → ℕ → ℕ → ℕ → ℕ → ℕ → ℕ → ℕ → ℕ → ℕ → ℕ → ℕ → ℕ → ℕ → ℕ → List ℕ)
    (fun _ _ _ _ _ _ _ _ _ _ _ _ _ _ _ _ => [])
    (fun _ ih w0 w1 w2 w3 w4 w5 w6 w7 w8 w9 w10 w11 w12 w13 w14 w15 =>
      w0 :: ih w1 w2 w3 w4 w5 w6 w7 w8 w9 w10 w11 w12 w13 w14 w15
        ((sigma1 w14 + w9 + sigma0 w1 + w0) % 2 ^ 32))
    n

/-- The 64-word message schedule of one 16-word block. -/
def schedule (block : List ℕ) : List ℕ :=
  match block with
  | [w0, w1, w2, w3, w4, w5, w6, w7, w8, w9, w10, w11, w12, w13, w14, w15] =>
    scheduleWin 64 w0 w1 w2 w3 w4 w5 w6 w7 w8 w9 w10 w11 w12 w13 w14 w15
  | _ => []

/-- The 64 compression rounds.  The head of the list is `K t + W t` for the
current round; `2 ^ 32 - 1 - e` is the 32-bit complement of `e`. -/
def runRounds : List ℕ → ℕ → ℕ → ℕ → ℕ → ℕ → ℕ → ℕ → ℕ → List ℕ
  | [], a, b, c, d, e, f, g, h => [a, b, c, d, e, f, g, h]
  | kw :: rest, a, b, c, d, e, f, g, h =>
    runRounds rest
      (((h + bigSigma1 e + ((e &&& f) ^^^ ((2 ^ 32 - 1 - e) &&& g)) + kw) % 2 ^ 32 +
        (bigSigma0 a + ((a &&& b) ^^^ (a &&& c) ^^^ (b &&& c))) % 2 ^ 32) % 2 ^ 32)
      a b c
      ((d + (h + bigSigma1 e + ((e &&& f) ^^^ ((2 ^ 32 - 1 - e) &&& g)) + kw) % 2 ^ 32) % 2 ^ 32)
      e f g

/-- Pointwise word addition modulo `2 ^ 32`. -/
def addWords : List ℕ → List ℕ → List ℕ
  | x :: xs, y :: ys => (x + y) % 2 ^ 32 :: addWords xs ys
  | _, _ => []

/-- Compress one 16-word block into the 8-word chaining value. -/
def compress (hv : List ℕ) (block : List ℕ) : List ℕ :=
  match hv with
  | [a, b, c, d, e, f, g, h] =>
    addWords hv (runRounds (addWords shaK (schedule block)) a b c d e f g h)
  | _ => hv

/-- A natural number as `k` big-endian bytes. -/
def natToBytesBE : ℕ → ℕ → List ℕ
  | 0, _ => []
  | k + 1, n => natToBytesBE k (n / 256) ++ [n % 256]

/-- SHA-256 padding: append `0x80`, zeros to 56 mod 64, and the 64-bit
bit-length. -/
def shaPad (msg : List ℕ) : List ℕ :=
  msg ++ [0x80] ++ List.replicate ((119 - msg.length % 64) % 64) 0 ++
    natToBytesBE 8 (8 * msg.length)

/-- Split a padded message into its 64-byte blocks (`n` is the block count). -/
def chunksAux : ℕ → List ℕ → List (List ℕ)
  | 0, _ => []
  | n + 1, l => l.take 64 :: chunksAux n (l.drop 64)

def foldBlocks : List (List ℕ) → List ℕ → List ℕ
  | [], hv => hv
  | b :: bs, hv => foldBlocks bs (compress hv (bytesToWords b))

/-- SHA-256 of a byte list, as 32 bytes. -/
def sha256 (msg : List ℕ) : List ℕ :=
  (foldBlocks (chunksAux ((shaPad msg).length / 64) (shaPad msg)) shaH0).flatMap wordToBytesBE

/-- The HMAC key, hashed if longer than the block size and zero-padded to 64
bytes (Go `crypto/hmac` with SHA-256). -/
def hmacKeyBlock (key : List ℕ) : List ℕ :=
  (if 64 < key.length then sha256 key else key) ++
    List.replicate (64 - (if 64 < key.length then sha256 key else key).length) 0

/-- HMAC-SHA256: `H ((K xor opad) ++ H ((K xor ipad) ++ msg))`. -/
def hmacSha256 (key msg : List ℕ) : List ℕ :=
  sha256 ((hmacKeyBlock key).map (fun b => b ^^^ 0x5c) ++
    sha256 ((hmacKeyBlock key).map (fun b => b ^^^ 0x36) ++ msg))

/-- FIPS 180-4 known-answer vector: SHA-256 of the empty message. -/
theorem sha256_empty_vector : sha256 [] =
    [0xe3, 0xb0, 0xc4, 0x42, 0x98, 0xfc, 0x1c, 0x14, 0x9a, 0xfb, 0xf4, 0xc8, 0x99, 0x6f, 0xb9, 0x24,
     0x27, 0xae, 0x41, 0xe4, 0x64, 0x9b, 0x93, 0x4c, 0xa4, 0x95, 0x99, 0x1b, 0x78, 0x52, 0xb8, 0x55] := by
  decide

/-- FIPS 180-4 known-answer vector: SHA-256 of `"abc"`. -/
theorem sha256_abc_vector : sha256 [0x61, 0x62, 0x63] =
    [0xba, 0x78, 0x16, 0xbf, 0x8f, 0x01, 0xcf, 0xea, 0x41, 0x41, 0x40, 0xde, 0x5d, 0xae, 0x22, 0x23,
     0xb0, 0x03, 0x61, 0xa3, 0x96, 0x17, 0x7a, 0x9c, 0xb4, 0x10, 0xff, 0x61, 0xf2, 0x00, 0x15, 0xad] := by
  decide

/-! ## Decimal rendering (Go `fmt.Sprintf` with `%d` on a non-negative int) -/

/-- Little-endian ASCII digits; the fuel argument bounds the digit count. -/
def decDigitsAux : ℕ → ℕ → List ℕ
  | 0, _ => []
  | f + 1, n => if n = 0 then [] else (48 + n % 10) :: decDigitsAux f (n / 10)

/-- ASCII bytes of the decimal rendering of a natural number. -/
def decimalAscii (n : ℕ) : List ℕ :=
  if n = 0 then [48] else (decDigitsAux n n).reverse

/-- The ASCII colon, the separator in every fairness message. -/
def colonByte : ℕ := 58


/-! ## Go float-to-2-decimals truncation

Go's `float64(int(x*100))/100` truncates toward zero; modelled exactly on
`ℚ`. -/

/-- Go's `int(q)` conversion: truncation toward zero. -/
def goInt (q : ℚ) : ℤ :=
  if q < 0 then ⌈q⌉ else ⌊q⌋

/-- Truncate a rational to 2 decimal places, toward zero. -/
def trunc2 (q : ℚ) : ℚ :=
  (goInt (q * 100) : ℚ) / 100

/-! ## The Fair Oracle (`internal/game/provably_fair.go`) -/

/-- `MIN_MULTIPLIER` -/
def MIN_MULTIPLIER : ℚ := 1
/-- `MAX_MULTIPLIER` -/
def MAX_MULTIPLIER : ℚ := 1000000
/-- `HOUSE_EDGE` -/
def HOUSE_EDGE : ℚ := 1 / 100
/-- `MAX_VALUE_F64 = 18446744073709551616.0 = 2 ^ 64` -/
def MAX_VALUE_F64 : ℚ := 18446744073709551616

/-- The fairness message `clientSeed ++ ":" ++ decimal nonce` built by
`fmt.Sprintf("%s:%d", clientSeed, nonce)`. -/
def fairMessage (clientSeed : List ℕ) (nonce : ℕ) : List ℕ :=
  clientSeed ++ [colonByte] ++ decimalAscii nonce

/-- The arithmetic part of `HashAndMapToMultiplier`, applied to the unsigned
64-bit integer read from the first 8 bytes (16 hex characters) of the HMAC
digest. -/
def mapToMultiplier (u : ℕ) : ℚ :=
  let rFloat : ℚ := (u : ℚ) / MAX_VALUE_F64
  if rFloat < HOUSE_EDGE then MIN_MULTIPLIER
  else
    let crashValue := (100 - HOUSE_EDGE * 100) / (100 - rFloat * 100)
    let finalMultiplier := trunc2 crashValue
    if finalMultiplier < MIN_MULTIPLIER then MIN_MULTIPLIER
    else if finalMultiplier > MAX_MULTIPLIER then MAX_MULTIPLIER
    else finalMultiplier

/-- `HashAndMapToMultiplier`: HMAC-SHA256 the message `clientSeed:nonce`
under the server seed, read the first 8 bytes big-endian, map to the crash
multiplier. -/
def HashAndMapToMultiplier (serverSeed clientSeed : List ℕ) (nonce : ℕ) : ℚ :=
  mapToMultiplier (bytesToBE ((hmacSha256 serverSeed (fairMessage clientSeed nonce)).take 8))

/-- `VerifyRound`: recompute the multiplier and accept when the absolute
difference from the claimed one is below 0.01. -/
def VerifyRound (serverSeed clientSeed : List ℕ) (nonce : ℕ) (claimedMultiplier : ℚ) : Bool :=
  let calculatedMultiplier := HashAndMapToMultiplier serverSeed clientSeed nonce
  let diff := calculatedMultiplier - claimedMultiplier
  decide ((if diff < 0 then -diff else diff) < 1 / 100)

/-! ### The spec's crash mapping, stated from its own words

Spec §4.1: `h = HMAC-SHA256(key = server_seed, msg = client_seed || ":" ||
decimal(nonce))`; `u` is the first 8 bytes of `h` as an unsigned 64-bit
big-endian integer; `r = u / 2 ^ 64`; if `r < 0.01` return 1.00; otherwise
`m = 99 / (100 · (1 - r))`, truncated to 2 decimals and clamped to
`[1.00, 1_000_000.00]`. -/

/-- The spec's mapping from the 64-bit hash reading to the multiplier. -/
def specCrashMapping (u : ℕ) : ℚ :=
  let r : ℚ := (u : ℚ) / 2 ^ 64
  if r < 1 / 100 then 1
  else max 1 (min 1000000 (trunc2 (99 / (100 * (1 - r)))))

/-- The spec's crash multiplier, end to end. -/
def specCrashMultiplier (serverSeed clientSeed : List ℕ) (nonce : ℕ) : ℚ :=
  specCrashMapping (bytesToBE ((hmacSha256 serverSeed (fairMessage clientSeed nonce)).take 8))

/-- The code's arithmetic agrees with the spec's at every 64-bit reading. -/
lemma mapToMultiplier_eq_specCrashMapping (u : ℕ) :
    mapToMultiplier u = specCrashMapping u := by
  have hr : ((u : ℚ) / MAX_VALUE_F64) = (u : ℚ) / 2 ^ 64 := by
    unfold MAX_VALUE_F64
    norm_num
  simp only [mapToMultiplier, specCrashMapping, MIN_MULTIPLIER, MAX_MULTIPLIER, HOUSE_EDGE, hr]
  have hnum : (100 : ℚ) - 1 / 100 * 100 = 99 := by norm_num
  have hden : (100 : ℚ) - (u : ℚ) / 2 ^ 64 * 100 = 100 * (1 - (u : ℚ) / 2 ^ 64) := by ring
  rw [hnum, hden]
  set fm := trunc2 (99 / (100 * (1 - (u : ℚ) / 2 ^ 64))) with hfm
  by_cases h : (u : ℚ) / 2 ^ 64 < 1 / 100
  · rw [if_pos h, if_pos h]
  · rw [if_neg h, if_neg h]
    rcases lt_or_le fm 1 with h1 | h1
    · rw [if_pos h1, max_eq_left (min_le_of_right_le h1.le)]
    · rw [if_neg (not_lt.mpr h1)]
      rcases lt_or_le (1000000 : ℚ) fm with h2 | h2
      · rw [if_pos h2, min_eq_left h2.le, max_eq_right (by norm_num)]
      · rw [if_neg (not_lt.mpr h2), min_eq_right h2, max_eq_right h1]

/-- Helper: the multiplier mapping lands in `[1, 1000000]` whatever the hash
reading, because both clamp branches and the in-range branch do. -/
lemma mapToMultiplier_range (u : ℕ) :
    1 ≤ mapToMultiplier u ∧ mapToMultiplier u ≤ 1000000 := by
  simp only [mapToMultiplier, MIN_MULTIPLIER, MAX_MULTIPLIER, HOUSE_EDGE]
  split_ifs with h1 h2 h3
  · exact ⟨le_refl 1, by norm_num⟩
  · exact ⟨le_refl 1, by norm_num⟩
  · exact ⟨by norm_num, le_refl 1000000⟩
  · exact ⟨not_lt.mp h2, not_lt.mp h3⟩

/-- Helper: the branch-style absolute value used by `VerifyRound` is `|·|`. -/
lemma verify_branch_abs (x : ℚ) : (if x < 0 then -x else x) = |x| := by
  split_ifs with h
  · exact (abs_of_neg h).symm
  · exact (abs_of_nonneg (not_lt.mp h)).symm

/-- C1: for every server seed, client seed and nonce, the crash multiplier
computed by `HashAndMapToMultiplier` (HMAC-SHA256 of `clientSeed:nonce` keyed
by the server seed, first 8 bytes big-endian as `u`, `r = u / 2 ^ 64`, 1.00
when `r < 0.01`, otherwise `(100 - 1) / (100 - 100 r)` truncated to 2
decimals and clamped to `[1.00, 1000000.00]`) equals the spec's mapping. -/
theorem crash_mapping_matches_spec (serverSeed clientSeed : List ℕ) (nonce : ℕ) :
    HashAndMapToMultiplier serverSeed clientSeed nonce =
      specCrashMultiplier serverSeed clientSeed nonce := by
  unfold HashAndMapToMultiplier specCrashMultiplier
  exact mapToMultiplier_eq_specCrashMapping _

/-- C2: verifying the multiplier the mapping itself produced always succeeds,
and in general `VerifyRound` accepts a claimed multiplier exactly when its
absolute difference from the recomputed one is below the 0.01 tolerance. -/
theorem verify_round_accepts_own_multiplier (serverSeed clientSeed : List ℕ) (nonce : ℕ) :
    VerifyRound serverSeed clientSeed nonce
        (HashAndMapToMultiplier serverSeed clientSeed nonce) = true ∧
      ∀ claimed : ℚ,
        (VerifyRound serverSeed clientSeed nonce claimed = true ↔
          |HashAndMapToMultiplier serverSeed clientSeed nonce - claimed| < 1 / 100) := by
  constructor
  · simp only [VerifyRound, sub_self, verify_branch_abs, abs_zero, decide_eq_true_eq]
    norm_num
  · intro claimed
    simp only [VerifyRound, verify_branch_abs, decide_eq_true_eq]

/-- C3: the crash multiplier always lies in `[1.00, 1000000.00]`, and the
mapping is deterministic: equal arguments give equal results. -/
theorem crash_multiplier_range_and_deterministic (serverSeed clientSeed : List ℕ) (nonce : ℕ) :
    1 ≤ HashAndMapToMultiplier serverSeed clientSeed nonce ∧
      HashAndMapToMultiplier serverSeed clientSeed nonce ≤ 1000000 ∧
      ∀ s2 c2 : List ℕ, ∀ n2 : ℕ, serverSeed = s2 → clientSeed = c2 → nonce = n2 →
        HashAndMapToMultiplier serverSeed clientSeed nonce = HashAndMapToMultiplier s2 c2 n2 := by
  refine ⟨(mapToMultiplier_range _).1, (mapToMultiplier_range _).2, ?_⟩
  intro s2 c2 n2 hs hc hn
  rw [hs, hc, hn]

/-- Witness for C3 at a concrete input. -/
theorem crash_multiplier_range_and_deterministic_witness :
    1 ≤ HashAndMapToMultiplier [115, 48] [99] 1 ∧
      HashAndMapToMultiplier [115, 48] [99] 1 ≤ 1000000 ∧
      HashAndMapToMultiplier [115, 48] [99] 1 = HashAndMapToMultiplier [115, 48] [99] 1 := by
  obtain ⟨h1, h2, h3⟩ := crash_multiplier_range_and_deterministic [115, 48] [99] 1
  exact ⟨h1, h2, h3 [115, 48] [99] 1 rfl rfl rfl⟩

/-! ## Mines position derivation (`MinesEngine.generateMinePositions`)

`MINES_GRID_SIZE = 25`.  Iteration `i` hashes `clientSeed:nonce:i`, takes the
first 4 bytes (8 hex characters) as an unsigned 32-bit big-endian integer and
reduces it modulo 25; a position is kept when not already present.  The loop
is capped at 100 iterations. -/

/-- `MINES_GRID_SIZE` -/
def MINES_GRID_SIZE : ℕ := 25

/-- The candidate position of iteration `i`. -/
def minePositionAt (serverSeed clientSeed : List ℕ) (nonce i : ℕ) : ℕ :=
  bytesToBE ((hmacSha256 serverSeed
    (clientSeed ++ [colonByte] ++ decimalAscii nonce ++ [colonByte] ++ decimalAscii i)).take 4) %
    MINES_GRID_SIZE

/-- The generation loop: `for i := 0; len(positions) < mineCount && i < 100; i++`,
with `fuel = 100 - i` counting the remaining iterations. -/
def genPositionsAux (s c : List ℕ) (nonce mineCount : ℕ) : ℕ → ℕ → List ℕ → List ℕ
  | 0, _, acc => acc
  | fuel + 1, i, acc =>
    if acc.length < mineCount then
      if minePositionAt s c nonce i ∈ acc then
        genPositionsAux s c nonce mineCount fuel (i + 1) acc
      else
        genPositionsAux s c nonce mineCount fuel (i + 1) (acc ++ [minePositionAt s c nonce i])
    else acc

/-- `MinesEngine.generateMinePositions`. -/
def generateMinePositions (serverSeed clientSeed : List ℕ) (nonce mineCount : ℕ) : List ℕ :=
  genPositionsAux serverSeed clientSeed nonce mineCount 100 0 []

/-- Helper: every candidate position lies on the 25-tile grid. -/
lemma minePositionAt_lt (s c : List ℕ) (nonce i : ℕ) : minePositionAt s c nonce i < 25 := by
  unfold minePositionAt MINES_GRID_SIZE
  exact Nat.mod_lt _ (by norm_num)

/-- Helper: the generation loop preserves distinctness, the grid bound and the
count bound of its accumulator. -/
lemma genPositionsAux_props (s c : List ℕ) (nonce mc : ℕ) :
    ∀ fuel i acc, acc.Nodup → (∀ p ∈ acc, p < 25) → acc.length ≤ mc →
      (genPositionsAux s c nonce mc fuel i acc).Nodup ∧
        (∀ p ∈ genPositionsAux s c nonce mc fuel i acc, p < 25) ∧
        (genPositionsAux s c nonce mc fuel i acc).length ≤ mc := by
  intro fuel
  induction fuel with
  | zero =>
    intro i acc h1 h2 h3
    exact ⟨h1, h2, h3⟩
  | succ f ih =>
    intro i acc h1 h2 h3
    simp only [genPositionsAux]
    split_ifs with hlen hmem
    · exact ih (i + 1) acc h1 h2 h3
    · refine ih (i + 1) (acc ++ [minePositionAt s c nonce i]) ?_ ?_ ?_
      · refine List.nodup_append.mpr ⟨h1, List.nodup_singleton _, ?_⟩
        intro a ha hb
        rw [List.mem_singleton] at hb
        subst hb
        exact hmem ha
      · intro p hp
        rcases List.mem_append.mp hp with hp | hp
        · exact h2 p hp
        · rw [List.mem_singleton] at hp
          subst hp
          exact minePositionAt_lt s c nonce i
      · rw [List.length_append, List.length_singleton]
        omega
    · exact ⟨h1, h2, h3⟩

/-- C7 (amended): the generated mine positions are pairwise distinct, all lie
in `[0, 25)`, and there are at most `mine_count` of them.  The original
claim's `|positions| = mine_count` fails when the 100-iteration cap runs out
of fresh residues — see the counterexample below. -/
theorem generateMinePositions_distinct_bounded (serverSeed clientSeed : List ℕ)
    (nonce mineCount : ℕ) :
    (generateMinePositions serverSeed clientSeed nonce mineCount).Nodup ∧
      ((generateMinePositions serverSeed clientSeed nonce mineCount).all
        fun p => p < 25) = true ∧
      (generateMinePositions serverSeed clientSeed nonce mineCount).length ≤ mineCount := by
  have h := genPositionsAux_props serverSeed clientSeed nonce mineCount 100 0 []
    (List.nodup_nil) (by intro p hp; simp at hp) (by simp)
  refine ⟨h.1, ?_, h.2.2⟩
  rw [List.all_eq_true]
  intro p hp
  exact decide_eq_true (h.2.1 p hp)



/-- The consecutive iteration indices of the generation loop. -/
def upFrom (i : ℕ) : ℕ → List ℕ
  | 0 => []
  | f + 1 => i :: upFrom (i + 1) f

/-- The generation loop re-expressed over the stream of candidate positions
(one entry per iteration).  This stages the kernel evaluation of the
counterexample below: the 100 candidates are computed once, in chunks of
ten, and the loop then runs on their literal values. -/
def genFromDraws (mc : ℕ) : List ℕ → List ℕ → List ℕ
  | [], acc => acc
  | d :: rest, acc =>
    if acc.length < mc then
      if d ∈ acc then genFromDraws mc rest acc
      else genFromDraws mc rest (acc ++ [d])
    else acc

/-- Helper: the generation loop equals the stream form on the candidate
stream of its remaining iterations. -/
lemma genPositionsAux_eq_genFromDraws (s c : List ℕ) (n mc : ℕ) :
    ∀ fuel i acc, genPositionsAux s c n mc fuel i acc =
      genFromDraws mc ((upFrom i fuel).map (minePositionAt s c n)) acc := by
  intro fuel
  induction fuel with
  | zero => intro i acc; rfl
  | succ f ih =>
    intro i acc
    simp only [upFrom, List.map_cons, genPositionsAux, genFromDraws]
    split_ifs
    · exact ih (i + 1) acc
    · exact ih (i + 1) (acc ++ [minePositionAt s c n i])
    · rfl

/-- Helper: index runs concatenate. -/
lemma upFrom_add (a : ℕ) : ∀ i b, upFrom i (a + b) = upFrom i a ++ upFrom (i + a) b := by
  induction a with
  | zero =>
    intro i b
    simp [upFrom]
  | succ k ih =>
    intro i b
    have h1 : k + 1 + b = (k + b) + 1 := by omega
    rw [h1]
    simp only [upFrom]
    rw [ih (i + 1) b]
    simp only [List.cons_append]
    have h2 : i + 1 + k = i + (k + 1) := by omega
    rw [h2]

set_option maxRecDepth 10000 in
/-- Helper: the 100 iteration indices, split into runs of ten. -/
lemma upFrom_100_split :
    upFrom 0 100 = upFrom 0 10 ++ (upFrom 10 10 ++ (upFrom 20 10 ++ (upFrom 30 10 ++
      (upFrom 40 10 ++ (upFrom 50 10 ++ (upFrom 60 10 ++ (upFrom 70 10 ++
      (upFrom 80 10 ++ upFrom 90 10)))))))) := by
  rw [show (100 : ℕ) = 10 + 90 from rfl, upFrom_add,
    show (90 : ℕ) = 10 + 80 from rfl, upFrom_add,
    show (80 : ℕ) = 10 + 70 from rfl, upFrom_add,
    show (70 : ℕ) = 10 + 60 from rfl, upFrom_add,
    show (60 : ℕ) = 10 + 50 from rfl, upFrom_add,
    show (50 : ℕ) = 10 + 40 from rfl, upFrom_add,
    show (40 : ℕ) = 10 + 30 from rfl, upFrom_add,
    show (30 : ℕ) = 10 + 20 from rfl, upFrom_add,
    show (20 : ℕ) = 10 + 10 from rfl, upFrom_add]

set_option maxRecDepth 100000 in
/-- Candidate positions of iterations 0 to 9 for the counterexample
seeds, computed by kernel evaluation of the embedded HMAC-SHA256. -/
lemma mineDraws_chunk0 :
    (upFrom 0 10).map (minePositionAt [115, 48] [99] 1) = [19, 4, 16, 17, 7, 11, 6, 10, 14, 20] := by
  decide

set_option maxRecDepth 100000 in
/-- Candidate positions of iterations 10 to 19 for the counterexample
seeds, computed by kernel evaluation of the embedded HMAC-SHA256. -/
lemma mineDraws_chunk1 :
    (upFrom 10 10).map (minePositionAt [115, 48] [99] 1) = [16, 10, 1, 1, 10, 1, 24, 4, 21, 8] := by
  decide

set_option maxRecDepth 100000 in
/-- Candidate positions of iterations 20 to 29 for the counterexample
seeds, computed by kernel evaluation of the embedded HMAC-SHA256. -/
lemma mineDraws_chunk2 :
    (upFrom 20 10).map (minePositionAt [115, 48] [99] 1) = [8, 1, 24, 9, 23, 14, 21, 22, 9, 18] := by
  decide

set_option maxRecDepth 100000 in
/-- Candidate positions of iterations 30 to 39 for the counterexample
seeds, computed by kernel evaluation of the embedded HMAC-SHA256. -/
lemma mineDraws_chunk3 :
    (upFrom 30 10).map (minePositionAt [115, 48] [99] 1) = [9, 0, 7, 12, 9, 20, 2, 20, 22, 12] := by
  decide

set_option maxRecDepth 100000 in
/-- Candidate positions of iterations 40 to 49 for the counterexample
seeds, computed by kernel evaluation of the embedded HMAC-SHA256. -/
lemma mineDraws_chunk4 :
    (upFrom 40 10).map (minePositionAt [115, 48] [99] 1) = [2, 4, 8, 8, 10, 19, 9, 5, 20, 0] := by
  decide

set_option maxRecDepth 100000 in
/-- Candidate positions of iterations 50 to 59 for the counterexample
seeds, computed by kernel evaluation of the embedded HMAC-SHA256. -/
lemma mineDraws_chunk5 :
    (upFrom 50 10).map (minePositionAt [115, 48] [99] 1) = [4, 1, 8, 3, 23, 1, 17, 19, 14, 17] := by
  decide

set_option maxRecDepth 100000 in
/-- Candidate positions of iterations 60 to 69 for the counterexample
seeds, computed by kernel evaluation of the embedded HMAC-SHA256. -/
lemma mineDraws_chunk6 :
    (upFrom 60 10).map (minePositionAt [115, 48] [99] 1) = [17, 20, 7, 9, 4, 14, 7, 18, 0, 9] := by
  decide

set_option maxRecDepth 100000 in
/-- Candidate positions of iterations 70 to 79 for the counterexample
seeds, computed by kernel evaluation of the embedded HMAC-SHA256. -/
lemma mineDraws_chunk7 :
    (upFrom 70 10).map (minePositionAt [115, 48] [99] 1) = [23, 16, 0, 21, 9, 5, 21, 8, 18, 6] := by
  decide

set_option maxRecDepth 100000 in
/-- Candidate positions of iterations 80 to 89 for the counterexample
seeds, computed by kernel evaluation of the embedded HMAC-SHA256. -/
lemma mineDraws_chunk8 :
    (upFrom 80 10).map (minePositionAt [115, 48] [99] 1) = [5, 23, 1, 3, 11, 16, 3, 16, 12, 3] := by
  decide

set_option maxRecDepth 100000 in
/-- Candidate positions of iterations 90 to 99 for the counterexample
seeds, computed by kernel evaluation of the embedded HMAC-SHA256. -/
lemma mineDraws_chunk9 :
    (upFrom 90 10).map (minePositionAt [115, 48] [99] 1) = [5, 22, 11, 16, 12, 10, 23, 22, 7, 3] := by
  decide

set_option maxRecDepth 10000 in
/-- Helper: all 100 candidate positions for server seed `"s0"` (bytes
`[115, 48]`), client seed `"c"` (byte `[99]`) and nonce 1.  Only 23 distinct
values occur among them. -/
lemma mineDraws_flat :
    (upFrom 0 100).map (minePositionAt [115, 48] [99] 1) =
      [19, 4, 16, 17, 7, 11, 6, 10, 14, 20, 16, 10, 1, 1, 10, 1, 24, 4, 21, 8, 8, 1, 24, 9, 23, 14, 21, 22, 9, 18, 9, 0, 7, 12, 9, 20, 2, 20, 22, 12, 2, 4, 8, 8, 10, 19, 9, 5, 20, 0, 4, 1, 8, 3, 23, 1, 17, 19, 14, 17, 17, 20, 7, 9, 4, 14, 7, 18, 0, 9, 23, 16, 0, 21, 9, 5, 21, 8, 18, 6, 5, 23, 1, 3, 11, 16, 3, 16, 12, 3, 5, 22, 11, 16, 12, 10, 23, 22, 7, 3] := by
  rw [upFrom_100_split]
  simp only [List.map_append]
  rw [mineDraws_chunk0, mineDraws_chunk1, mineDraws_chunk2, mineDraws_chunk3,
    mineDraws_chunk4, mineDraws_chunk5, mineDraws_chunk6, mineDraws_chunk7,
    mineDraws_chunk8, mineDraws_chunk9]
  rfl

set_option maxRecDepth 10000 in
/-- C7 counterexample: with server seed `"s0"`, client seed `"c"`, nonce 1
and `mine_count = 24`, the 100 capped iterations only ever meet 23 distinct
residues modulo 25, so the generated position list does not have
`mine_count` elements (it has 23). -/
theorem generateMinePositions_count_counterexample :
    (generateMinePositions [115, 48] [99] 1 24).length ≠ 24 := by
  have heq : generateMinePositions [115, 48] [99] 1 24 =
      genFromDraws 24 ((upFrom 0 100).map (minePositionAt [115, 48] [99] 1)) [] :=
    genPositionsAux_eq_genFromDraws [115, 48] [99] 1 24 100 0 []
  rw [heq, mineDraws_flat]
  decide

/-! ## Mines payout (`MinesEngine.calculatePayout`)

`multiplier = ∏ i < revealedCount, (25 - i) / ((25 - mineCount) - i)`, then
`× 0.97` (house edge), applied to the bet and truncated to 2 decimals;
`revealedCount = 0` returns the bet unchanged. -/

/-- The running product of the Go loop
`for i := 0; i < revealedCount; i++ { multiplier *= (25 - i) / (safeTiles - i) }`. -/
def minesMultiplier (mineCount : ℕ) : ℕ → ℚ
  | 0 => 1
  | r + 1 => minesMultiplier mineCount r * ((25 - (r : ℚ)) / ((25 - (mineCount : ℚ)) - (r : ℚ)))

/-- `MinesEngine.calculatePayout`. -/
def calculatePayout (betAmount : ℚ) (mineCount revealedCount : ℕ) : ℚ :=
  if revealedCount = 0 then betAmount
  else trunc2 (betAmount * (minesMultiplier mineCount revealedCount * (97 / 100)))

/-- Helper: a base below a 2-decimal truncation, given a full cent of room. -/
lemma lt_trunc2_of_add_le {b y : ℚ} (hb : 0 ≤ b) (h : b + 1 / 100 ≤ y) : b < trunc2 y := by
  have hy : 0 ≤ y * 100 := by nlinarith
  unfold trunc2 goInt
  rw [if_neg (not_lt.mpr hy), lt_div_iff₀ (by norm_num : (0 : ℚ) < 100)]
  have h1 : ⌊b * 100⌋ + 1 ≤ ⌊y * 100⌋ := by
    have hby : b * 100 + 1 ≤ y * 100 := by nlinarith
    calc ⌊b * 100⌋ + 1 = ⌊b * 100 + 1⌋ := (Int.floor_add_one _).symm
      _ ≤ ⌊y * 100⌋ := Int.floor_mono hby
  have h2 : b * 100 < (⌊b * 100⌋ : ℚ) + 1 := Int.lt_floor_add_one _
  have h3 : ((⌊b * 100⌋ + 1 : ℤ) : ℚ) ≤ (⌊y * 100⌋ : ℚ) := by exact_mod_cast h1
  push_cast at h3
  linarith

/-- Helper: 2-decimal truncation is strictly monotone across a full cent. -/
lemma trunc2_lt_trunc2_of_add_le {x y : ℚ} (hx : 0 ≤ x) (h : x + 1 / 100 ≤ y) :
    trunc2 x < trunc2 y := by
  have hx100 : 0 ≤ x * 100 := by nlinarith
  have hy100 : 0 ≤ y * 100 := by nlinarith
  unfold trunc2 goInt
  rw [if_neg (not_lt.mpr hx100), if_neg (not_lt.mpr hy100),
    div_lt_div_iff_of_pos_right (by norm_num : (0 : ℚ) < 100)]
  have h1 : ⌊x * 100⌋ + 1 ≤ ⌊y * 100⌋ := by
    have hxy : x * 100 + 1 ≤ y * 100 := by nlinarith
    calc ⌊x * 100⌋ + 1 = ⌊x * 100 + 1⌋ := (Int.floor_add_one _).symm
      _ ≤ ⌊y * 100⌋ := Int.floor_mono hxy
  have : (⌊x * 100⌋ : ℚ) < (⌊y * 100⌋ : ℚ) := by exact_mod_cast h1
  exact this

/-- Helper: the multiplier product is at least 1 while tiles remain. -/
lemma one_le_minesMultiplier (mc : ℕ) :
    ∀ r, r + mc ≤ 25 → 1 ≤ minesMultiplier mc r := by
  intro r
  induction r with
  | zero =>
    intro _
    simp [minesMultiplier]
  | succ k ih =>
    intro hk
    have ihk := ih (by omega)
    have hkQ : (k : ℚ) + 1 + mc ≤ 25 := by exact_mod_cast hk
    have hden0 : (0 : ℚ) < (25 - (mc : ℚ)) - k := by linarith
    have hmc0 : (0 : ℚ) ≤ (mc : ℚ) := Nat.cast_nonneg mc
    have hfac : 1 ≤ (25 - (k : ℚ)) / ((25 - (mc : ℚ)) - k) := by
      rw [le_div_iff₀ hden0]
      linarith
    calc (1 : ℚ) = 1 * 1 := by ring
      _ ≤ minesMultiplier mc k * ((25 - (k : ℚ)) / ((25 - (mc : ℚ)) - k)) :=
          mul_le_mul ihk hfac (by norm_num) (by linarith)
      _ = minesMultiplier mc (k + 1) := by simp [minesMultiplier]

/-- C8 counterexample: the payout is not monotone in the revealed count for
a bet below the engine's 1.00 minimum: with bet 0.503 and one mine, the first
safe reveal drops the payout from 0.503 to 0.50 (the 2-decimal truncation
swallows the sub-cent gain). -/
theorem calculatePayout_not_monotone_counterexample :
    calculatePayout (503 / 1000) 1 1 < calculatePayout (503 / 1000) 1 0 := by
  norm_num [calculatePayout, minesMultiplier, trunc2, goInt]

/-- C8 (amended): for bet amounts of at least the 1.00 bet minimum, the Mines
payout is strictly increasing (hence monotone) in the number of revealed safe
tiles, while `mine_count ≥ 1` and `revealed < 25 - mine_count`. -/
theorem calculatePayout_strict_increase (bet : ℚ) (mc r : ℕ)
    (hbet : 1 ≤ bet) (hmc : 1 ≤ mc) (hr : r + 1 ≤ 25 - mc) :
    calculatePayout bet mc r < calculatePayout bet mc (r + 1) := by
  have hmc24 : mc ≤ 24 := by omega
  have hsum : r + 1 + mc ≤ 25 := by omega
  have hsumQ : (r : ℚ) + 1 + mc ≤ 25 := by exact_mod_cast hsum
  have hmcQ : (1 : ℚ) ≤ (mc : ℚ) := by exact_mod_cast hmc
  have hr0Q : (0 : ℚ) ≤ (r : ℚ) := Nat.cast_nonneg r
  have hM : 1 ≤ minesMultiplier mc r := one_le_minesMultiplier mc r (by omega)
  have hbet0 : (0 : ℚ) ≤ bet := by linarith
  have hden0 : (0 : ℚ) < (25 - (mc : ℚ)) - r := by linarith
  have hdenne : (25 - (mc : ℚ)) - r ≠ 0 := ne_of_gt hden0
  have hden24 : (25 - (mc : ℚ)) - r ≤ 24 := by linarith
  have hbetM : 1 ≤ bet * minesMultiplier mc r := by
    calc (1 : ℚ) = 1 * 1 := by ring
      _ ≤ bet * minesMultiplier mc r :=
          mul_le_mul hbet hM (by norm_num) hbet0
  have hA97 : 97 / 100 ≤ bet * (minesMultiplier mc r * (97 / 100)) := by nlinarith
  have hMr1 : minesMultiplier mc (r + 1) =
      minesMultiplier mc r * ((25 - (r : ℚ)) / ((25 - (mc : ℚ)) - r)) := by
    simp [minesMultiplier]
  have hqid : (25 - (r : ℚ)) / ((25 - (mc : ℚ)) - r) =
      1 + (mc : ℚ) / ((25 - (mc : ℚ)) - r) := by
    field_simp
    ring
  have hfrac : (1 : ℚ) / 24 ≤ (mc : ℚ) / ((25 - (mc : ℚ)) - r) := by
    rw [div_le_div_iff₀ (by norm_num : (0 : ℚ) < 24) hden0]
    nlinarith
  have hfrac0 : (0 : ℚ) ≤ (mc : ℚ) / ((25 - (mc : ℚ)) - r) :=
    le_trans (by norm_num) hfrac
  have hBexp : bet * (minesMultiplier mc (r + 1) * (97 / 100)) =
      bet * (minesMultiplier mc r * (97 / 100)) *
        (1 + (mc : ℚ) / ((25 - (mc : ℚ)) - r)) := by
    rw [hMr1, hqid]
    ring
  have hstep : bet * (minesMultiplier mc r * (97 / 100)) + 1 / 100 ≤
      bet * (minesMultiplier mc (r + 1) * (97 / 100)) := by
    rw [hBexp]
    have hge : (1 : ℚ) / 24 * (97 / 100) ≤
        ((mc : ℚ) / ((25 - (mc : ℚ)) - r)) * (bet * (minesMultiplier mc r * (97 / 100))) :=
      mul_le_mul hfrac hA97 (by norm_num) hfrac0
    nlinarith
  rcases Nat.eq_zero_or_pos r with hrz | hrpos
  · subst hrz
    have hM1 : minesMultiplier mc 1 = 25 / (25 - (mc : ℚ)) := by
      simp [minesMultiplier]
    have hS1 : (1 : ℚ) ≤ 25 - (mc : ℚ) := by linarith
    have hS0 : (0 : ℚ) < 25 - (mc : ℚ) := by linarith
    have hS24 : (25 : ℚ) - (mc : ℚ) ≤ 24 := by linarith
    have hkey : bet + 1 / 100 ≤ bet * (minesMultiplier mc 1 * (97 / 100)) := by
      rw [hM1]
      have hexp : bet * (25 / (25 - (mc : ℚ)) * (97 / 100)) =
          bet * 2425 / (100 * (25 - (mc : ℚ))) := by
        field_simp
        ring
      rw [hexp, le_div_iff₀ (by positivity)]
      nlinarith [mul_nonneg (by linarith : (0 : ℚ) ≤ 24 - (25 - (mc : ℚ))) hbet0]
    have hlhs : calculatePayout bet mc 0 = bet := by simp [calculatePayout]
    have hrhs : calculatePayout bet mc (0 + 1) =
        trunc2 (bet * (minesMultiplier mc 1 * (97 / 100))) := by
      simp [calculatePayout]
    rw [hlhs, hrhs]
    exact lt_trunc2_of_add_le hbet0 hkey
  · have hrne : r ≠ 0 := by omega
    have hlhs : calculatePayout bet mc r =
        trunc2 (bet * (minesMultiplier mc r * (97 / 100))) := by
      simp [calculatePayout, hrne]
    have hrhs : calculatePayout bet mc (r + 1) =
        trunc2 (bet * (minesMultiplier mc (r + 1) * (97 / 100))) := by
      simp [calculatePayout]
    rw [hlhs, hrhs]
    exact trunc2_lt_trunc2_of_add_le (by linarith) hstep

/-- Witness for C8 at a concrete input: one reveal with 3 mines on a 100.00
bet strictly raises the payout. -/
theorem calculatePayout_strict_increase_witness :
    calculatePayout 100 3 0 < calculatePayout 100 3 1 :=
  calculatePayout_strict_increase 100 3 0 (by norm_num) (by norm_num) (by norm_num)

/-! ## The crash round engine (`internal/game/dice_engine.go`, `Manager`)

State the handlers touch: the current round (guarded copy of
`m.currentRound`), the per-round bets hash `crash:bets:active:<roundID>`
(`bet_id → ActiveBet`), and the balances `crash:balance:<userID>`.
`time.Now().UnixNano()` is an explicit `now` parameter. -/

/-- `RoundState` (`types.go`); timestamps as naturals. -/
structure RoundState where
  roundID : String
  serverSeed : String
  hashCommitment : String
  clientSeed : String
  crashMultiplier : ℚ
  currentMultiplier : ℚ
  status : String
  startTime : ℕ
  crashTime : ℕ
  nonce : ℕ
deriving DecidableEq

/-- `ActiveBet` (`types.go`). -/
structure ActiveBet where
  betID : String
  userID : String
  amount : ℚ
  autoCashout : ℚ
  placedAt : ℕ
  cashedOut : Bool
deriving DecidableEq

/-- The store and round state visible to the bet/cashout handlers. -/
structure EngineState where
  currentRound : Option RoundState
  bets : String → String → Option ActiveBet
  balances : String → ℚ

/-- `BetRequest` (response channel omitted — replies are return values here). -/
structure BetRequest where
  userID : String
  amount : ℚ
  autoCashout : ℚ
  roundID : String

/-- `BetResponse`. -/
structure BetResponse where
  success : Bool
  message : String
  betID : String
  balance : ℚ
deriving DecidableEq

/-- `CashoutRequest` (response channel omitted). -/
structure CashoutRequest where
  userID : String
  betID : String
  roundID : String

/-- `CashoutResponse`. -/
structure CashoutResponse where
  success : Bool
  message : String
  multiplier : ℚ
  payout : ℚ
  balance : ℚ
deriving DecidableEq

/-- `MIN_BET_AMOUNT` -/
def MIN_BET_AMOUNT : ℚ := 1
/-- `MAX_BET_AMOUNT` -/
def MAX_BET_AMOUNT : ℚ := 10000

/-- `HSet` on the per-round bets hash. -/
def setBet (st : EngineState) (rid bid : String) (b : ActiveBet) : EngineState :=
  { st with bets := fun r i => if r = rid ∧ i = bid then some b else st.bets r i }

/-- `IncrByFloat`-style write of a user balance. -/
def setBalance (st : EngineState) (uid : String) (v : ℚ) : EngineState :=
  { st with balances := fun u => if u = uid then v else st.balances u }

/-- Stand-in for `fmt.Sprintf("Cashed out at %.2fx", m)`; the claims under
study only inspect failure messages, never this success message. -/
def cashoutSuccessMessage (m : ℚ) : String :=
  "Cashed out at " ++ toString (goInt (m * 100)) ++ "e-2x"

/-- `Manager.processBet`: amount bounds, phase check, balance check, atomic
debit (with the code's rollback branch), bet creation and storage. -/
def processBet (st : EngineState) (req : BetRequest) (now : ℕ) : BetResponse × EngineState :=
  if req.amount < MIN_BET_AMOUNT ∨ req.amount > MAX_BET_AMOUNT then
    ({ success := false, message := "Bet must be between 1.00 and 10000.00",
       betID := "", balance := 0 }, st)
  else
    match st.currentRound with
    | none =>
      ({ success := false, message := "Betting is closed", betID := "", balance := 0 }, st)
    | some round =>
      if round.status ≠ "BETTING" then
        ({ success := false, message := "Betting is closed", betID := "", balance := 0 }, st)
      else
        let balance := st.balances req.userID
        if balance < req.amount then
          ({ success := false, message := "Insufficient balance", betID := "",
             balance := balance }, st)
        else
          let newBalance := balance - req.amount
          let st1 := setBalance st req.userID newBalance
          if newBalance < 0 then
            ({ success := false, message := "Transaction failed", betID := "", balance := 0 },
              setBalance st1 req.userID (newBalance + req.amount))
          else
            let betID := "BET-" ++ req.userID ++ "-" ++ toString now
            ({ success := true, message := "Bet placed successfully", betID := betID,
               balance := newBalance },
              setBet st1 round.roundID betID
                { betID := betID, userID := req.userID, amount := req.amount,
                  autoCashout := req.autoCashout, placedAt := now, cashedOut := false })

/-- `Manager.processCashout`: phase check, bet lookup, idempotence guard,
payout at the snapshotted multiplier, credit, mark cashed out. -/
def processCashout (st : EngineState) (req : CashoutRequest) : CashoutResponse × EngineState :=
  match st.currentRound with
  | none =>
    ({ success := false, message := "Cannot cashout now", multiplier := 0, payout := 0,
       balance := 0 }, st)
  | some round =>
    if round.status ≠ "RUNNING" then
      ({ success := false, message := "Cannot cashout now", multiplier := 0, payout := 0,
         balance := 0 }, st)
    else
      match st.bets round.roundID req.betID with
      | none =>
        ({ success := false, message := "Bet not found", multiplier := 0, payout := 0,
           balance := 0 }, st)
      | some bet =>
        if bet.cashedOut then
          ({ success := false, message := "Already cashed out", multiplier := 0, payout := 0,
             balance := 0 }, st)
        else
          let payout := bet.amount * round.currentMultiplier
          let newBalance := st.balances req.userID + payout
          let st1 := setBalance st req.userID newBalance
          ({ success := true, message := cashoutSuccessMessage round.currentMultiplier,
             multiplier := round.currentMultiplier, payout := payout, balance := newBalance },
            setBet st1 round.roundID req.betID { bet with cashedOut := true })

/-- C4: cashing out is at-most-once.  (i) If the stored bet is already marked
`cashed_out`, `processCashout` fails with "Already cashed out" and leaves the
state untouched — no credit, no write.  (ii) After any successful cashout,
repeating the same request fails with "Already cashed out" and leaves the
post-cashout state untouched, so the flag flips false→true at most once and
the payout is credited at most once. -/
theorem processCashout_at_most_once (st : EngineState) (req : CashoutRequest) :
    (∀ round bet, st.currentRound = some round → round.status = "RUNNING" →
        st.bets round.roundID req.betID = some bet → bet.cashedOut = true →
        processCashout st req =
          ({ success := false, message := "Already cashed out", multiplier := 0, payout := 0,
             balance := 0 }, st))
    ∧ ((processCashout st req).1.success = true →
        processCashout (processCashout st req).2 req =
          ({ success := false, message := "Already cashed out", multiplier := 0, payout := 0,
             balance := 0 }, (processCashout st req).2)) := by
  constructor
  · intro round bet h1 h2 h3 h4
    simp [processCashout, h1, h2, h3, h4]
  · intro hsucc
    cases hcr : st.currentRound with
    | none => simp [processCashout, hcr] at hsucc
    | some round =>
      by_cases hrun : round.status = "RUNNING"
      · cases hbet : st.bets round.roundID req.betID with
        | none => simp [processCashout, hcr, hbet, hrun] at hsucc
        | some bet =>
          by_cases hco : bet.cashedOut = true
          · simp [processCashout, hcr, hbet, hrun, hco] at hsucc
          · simp only [Bool.not_eq_true] at hco
            simp [processCashout, hcr, hbet, hrun, hco, setBet, setBalance]
      · simp [processCashout, hcr, hrun] at hsucc

/-- The concrete round used by the C4 witness. -/
def c4Round : RoundState :=
  { roundID := "R1", serverSeed := "s", hashCommitment := "h", clientSeed := "c",
    crashMultiplier := 2, currentMultiplier := 3 / 2, status := "RUNNING",
    startTime := 0, crashTime := 0, nonce := 1 }

/-- The concrete already-cashed-out bet used by the C4 witness. -/
def c4Bet : ActiveBet :=
  { betID := "B1", userID := "alice", amount := 100, autoCashout := 0, placedAt := 0,
    cashedOut := true }

/-- The concrete engine state used by the C4 witness. -/
def c4State : EngineState :=
  { currentRound := some c4Round,
    bets := fun r i => if r = "R1" ∧ i = "B1" then some c4Bet else none,
    balances := fun _ => 1000 }

/-- Witness for C4: at the concrete state, the repeated cashout fails with
"Already cashed out" and leaves everything unchanged. -/
theorem processCashout_at_most_once_witness :
    processCashout c4State { userID := "alice", betID := "B1", roundID := "R1" } =
      ({ success := false, message := "Already cashed out", multiplier := 0, payout := 0,
         balance := 0 }, c4State) :=
  (processCashout_at_most_once c4State { userID := "alice", betID := "B1", roundID := "R1" }).1
    c4Round c4Bet rfl rfl (by simp [c4State, c4Round]) rfl

/-- The concrete RUNNING round used by the C5 counterexample and witness. -/
def c5Round : RoundState :=
  { roundID := "R2", serverSeed := "s", hashCommitment := "h", clientSeed := "c",
    crashMultiplier := 2, currentMultiplier := 3 / 2, status := "RUNNING",
    startTime := 0, crashTime := 0, nonce := 2 }

/-- The concrete engine state used by the C5 counterexample and witness. -/
def c5State : EngineState :=
  { currentRound := some c5Round, bets := fun _ _ => none, balances := fun _ => 1000 }

/-- C5 counterexample: a bet submitted while the round is RUNNING does *not*
always answer "Betting is closed" — the amount bounds are validated first, so
a 0.50 bet during RUNNING answers the bounds message instead (success is
still false and the state unchanged). -/
theorem processBet_running_message_counterexample :
    c5State.currentRound = some c5Round ∧ c5Round.status = "RUNNING" ∧
      (processBet c5State
          { userID := "alice", amount := 1 / 2, autoCashout := 0, roundID := "R2" } 0).1.message =
        "Bet must be between 1.00 and 10000.00" ∧
      (processBet c5State
          { userID := "alice", amount := 1 / 2, autoCashout := 0, roundID := "R2" } 0).1.message ≠
        "Betting is closed" := by
  have hne : ("Bet must be between 1.00 and 10000.00" : String) ≠ "Betting is closed" := by
    decide
  refine ⟨rfl, rfl, ?_, ?_⟩ <;>
    norm_num [processBet, MIN_BET_AMOUNT, MAX_BET_AMOUNT, hne]

/-- C5 (amended): a bet whose amount passes the bounds validation, submitted
while the current round's status is RUNNING, is answered with success=false
and "Betting is closed", the balance is untouched and no bet is stored. -/
theorem processBet_betting_closed (st : EngineState) (req : BetRequest) (now : ℕ)
    (round : RoundState) (h1 : st.currentRound = some round) (h2 : round.status = "RUNNING")
    (h3 : MIN_BET_AMOUNT ≤ req.amount) (h4 : req.amount ≤ MAX_BET_AMOUNT) :
    processBet st req now =
      ({ success := false, message := "Betting is closed", betID := "", balance := 0 }, st) := by
  have hnb : ¬(req.amount < MIN_BET_AMOUNT ∨ req.amount > MAX_BET_AMOUNT) :=
    not_or.mpr ⟨not_lt.mpr h3, not_lt.mpr h4⟩
  have hne : ("RUNNING" : String) ≠ "BETTING" := by decide
  simp [processBet, h1, h2, hnb, hne]

/-- Witness for C5 at a concrete input: a 100.00 bet during RUNNING. -/
theorem processBet_betting_closed_witness :
    processBet c5State { userID := "alice", amount := 100, autoCashout := 0, roundID := "R2" } 7 =
      ({ success := false, message := "Betting is closed", betID := "", balance := 0 },
        c5State) :=
  processBet_betting_closed c5State
    { userID := "alice", amount := 100, autoCashout := 0, roundID := "R2" } 7 c5Round rfl rfl
    (by norm_num [MIN_BET_AMOUNT]) (by norm_num [MAX_BET_AMOUNT])

/-! ## The client-visible JSON projection of a round (C6)

`RoundState`'s struct tags: `ServerSeed` and `CrashMultiplier` carry
`json:"-"` and are never marshalled; every other field is.  `GET /game/state`
and the `initial_state` WebSocket payload marshal exactly this struct
(`getGameStateHandler`, `gameWebSocketHandler`). -/

/-- A JSON value, as far as the projection needs one. -/
inductive JsonValue where
  | str : String → JsonValue
  | num : ℚ → JsonValue
  | nat : ℕ → JsonValue
  | natList : List ℕ → JsonValue
deriving DecidableEq

/-- The `encoding/json` marshalling of `RoundState` induced by its struct
tags: the listed fields in declaration order; `server_seed` and
`crash_multiplier` are tagged `json:"-"` and do not appear. -/
def roundStateJSON (r : RoundState) : List (String × JsonValue) :=
  [("round_id", JsonValue.str r.roundID),
   ("hash_commitment", JsonValue.str r.hashCommitment),
   ("client_seed", JsonValue.str r.clientSeed),
   ("current_multiplier", JsonValue.num r.currentMultiplier),
   ("status", JsonValue.str r.status),
   ("start_time", JsonValue.nat r.startTime),
   ("crash_time", JsonValue.nat r.crashTime),
   ("nonce", JsonValue.nat r.nonce)]

/-- C6: the serialized round reveals nothing about `server_seed` or
`crash_multiplier` — rewriting both fields arbitrarily leaves the JSON
byte-identical (so in particular this holds while the round is not yet
CRASHED), and neither key occurs in the serialization. -/
theorem roundStateJSON_hides_secrets (r : RoundState) (seed : String) (crash : ℚ) :
    roundStateJSON { r with serverSeed := seed, crashMultiplier := crash } = roundStateJSON r ∧
      (roundStateJSON r).lookup "server_seed" = none ∧
      (roundStateJSON r).lookup "crash_multiplier" = none :=
  ⟨rfl, rfl, rfl⟩


/-! ## The Mines engine (`MinesEngine`, cache/game package)

`MINES_MIN_COUNT = 1`, `MINES_MAX_COUNT = 24`.  A session is loaded from
`mines:game:<gameID>`, mutated, and stored back; the logic between load and
store is embedded.  Tile ids arrive as Go ints (`ℤ`); stored positions are
grid indices (`ℕ`). -/

/-- `MinesGameState`; timestamps as naturals. -/
structure MinesGameState where
  gameID : String
  userID : String
  betAmount : ℚ
  mineCount : ℕ
  serverSeed : String
  clientSeed : String
  nonce : ℕ
  minePositions : List ℕ
  revealedTiles : List ℕ
  currentPayout : ℚ
  status : String
  createdAt : ℕ
  endedAt : ℕ
deriving DecidableEq

/-- `MinesBetRequest`. -/
structure MinesBetRequest where
  userID : String
  amount : ℚ
  mineCount : ℕ

/-- `MinesBetResponse`. -/
structure MinesBetResponse where
  success : Bool
  message : String
  gameID : String
  balance : ℚ
  currentPayout : ℚ
deriving DecidableEq

/-- `MinesClickResponse`. -/
structure MinesClickResponse where
  success : Bool
  message : String
  tileID : ℤ
  isMine : Bool
  currentPayout : ℚ
  gameStatus : String
  balance : ℚ
deriving DecidableEq

/-- `MinesCashoutResponse`. -/
structure MinesCashoutResponse where
  success : Bool
  message : String
  payout : ℚ
  balance : ℚ
deriving DecidableEq

/-- The tail of `MinesEngine.PlaceBet` after a successful debit: build and
store the ACTIVE session, and answer with game id, balance and the initial
payout (the bet amount).  Seeds, nonce and the derived mine positions enter
as parameters. -/
def minesPlaceBetFinish (req : MinesBetRequest) (newBalance : ℚ) (gameID : String)
    (serverSeed clientSeed : String) (nonce : ℕ) (minePositions : List ℕ) (now : ℕ) :
    MinesBetResponse × MinesGameState :=
  ({ success := true, message := "Game started", gameID := gameID, balance := newBalance,
     currentPayout := req.amount },
   { gameID := gameID, userID := req.userID, betAmount := req.amount,
     mineCount := req.mineCount, serverSeed := serverSeed, clientSeed := clientSeed,
     nonce := nonce, minePositions := minePositions, revealedTiles := [],
     currentPayout := req.amount, status := "ACTIVE", createdAt := now, endedAt := 0 })

/-- `MinesEngine.handleTileClick`, from the loaded session to the stored one
(the "Game not found" load failure is a store matter outside this model). -/
def handleTileClick (g : MinesGameState) (tileID : ℤ) (now : ℕ) :
    MinesClickResponse × MinesGameState :=
  if g.status ≠ "ACTIVE" then
    ({ success := false, message := "Game is not active", tileID := 0, isMine := false,
       currentPayout := 0, gameStatus := "", balance := 0 }, g)
  else if tileID < 0 ∨ (MINES_GRID_SIZE : ℤ) ≤ tileID then
    ({ success := false, message := "Invalid tile ID", tileID := 0, isMine := false,
       currentPayout := 0, gameStatus := "", balance := 0 }, g)
  else if tileID.toNat ∈ g.revealedTiles then
    ({ success := false, message := "Tile already revealed", tileID := 0, isMine := false,
       currentPayout := 0, gameStatus := "", balance := 0 }, g)
  else if tileID.toNat ∈ g.minePositions then
    ({ success := true, message := "You hit a mine!", tileID := tileID, isMine := true,
       currentPayout := 0, gameStatus := "BUSTED", balance := 0 },
     { g with status := "BUSTED", endedAt := now, currentPayout := 0 })
  else
    ({ success := true, message := "Safe tile!", tileID := tileID, isMine := false,
       currentPayout :=
         calculatePayout g.betAmount g.mineCount (g.revealedTiles ++ [tileID.toNat]).length,
       gameStatus := "ACTIVE", balance := 0 },
     { g with
        revealedTiles := g.revealedTiles ++ [tileID.toNat],
        currentPayout :=
          calculatePayout g.betAmount g.mineCount
            (g.revealedTiles ++ [tileID.toNat]).length })

/-- `MinesEngine.handleCashout`, from the loaded session to the stored one;
`balances` is the user-balance store read by the credit. -/
def handleCashout (g : MinesGameState) (balances : String → ℚ) (userID : String) (now : ℕ) :
    MinesCashoutResponse × MinesGameState :=
  if g.status ≠ "ACTIVE" then
    ({ success := false, message := "Game is not active", payout := 0, balance := 0 }, g)
  else if g.revealedTiles.length = 0 then
    ({ success := false, message := "Must reveal at least one tile before cashing out",
       payout := 0, balance := 0 }, g)
  else
    ({ success := true, message := "Cashed out successfully", payout := g.currentPayout,
       balance := balances userID + g.currentPayout },
     { g with status := "CASHED_OUT", endedAt := now })

/-- The `encoding/json` marshalling of `MinesGameState` induced by its struct
tags: `ServerSeed` and `MinePositions` are tagged `json:"-"` ("hidden until
game ends") and do not appear. -/
def minesGameStateJSON (g : MinesGameState) : List (String × JsonValue) :=
  [("game_id", JsonValue.str g.gameID),
   ("user_id", JsonValue.str g.userID),
   ("bet_amount", JsonValue.num g.betAmount),
   ("mine_count", JsonValue.nat g.mineCount),
   ("client_seed", JsonValue.str g.clientSeed),
   ("nonce", JsonValue.nat g.nonce),
   ("revealed_tiles", JsonValue.natList g.revealedTiles),
   ("current_payout", JsonValue.num g.currentPayout),
   ("status", JsonValue.str g.status),
   ("created_at", JsonValue.nat g.createdAt),
   ("ended_at", JsonValue.nat g.endedAt)]

/-- C10: server output never leaks the mine layout before the game ends.
The JSON form of a session is unchanged by rewriting `ServerSeed` and
`MinePositions` arbitrarily, and carries neither key; the click response
depends on the layout only through the clicked tile's is-mine verdict; the
cashout and bet responses are independent of the layout altogether. -/
theorem minesState_hides_layout (g : MinesGameState) (seed : String) (ps : List ℕ) :
    (minesGameStateJSON { g with serverSeed := seed, minePositions := ps } =
        minesGameStateJSON g ∧
      (minesGameStateJSON g).lookup "server_seed" = none ∧
      (minesGameStateJSON g).lookup "mine_positions" = none)
    ∧ (∀ tileID : ℤ, ∀ now : ℕ,
        (tileID.toNat ∈ ps ↔ tileID.toNat ∈ g.minePositions) →
        (handleTileClick { g with serverSeed := seed, minePositions := ps } tileID now).1 =
          (handleTileClick g tileID now).1)
    ∧ (∀ balances : String → ℚ, ∀ userID : String, ∀ now : ℕ,
        (handleCashout { g with serverSeed := seed, minePositions := ps } balances userID now).1 =
          (handleCashout g balances userID now).1)
    ∧ (∀ req newBalance gameID sSeed cSeed nonce now,
        (minesPlaceBetFinish req newBalance gameID sSeed cSeed nonce ps now).1 =
          (minesPlaceBetFinish req newBalance gameID sSeed cSeed nonce g.minePositions now).1) := by
  refine ⟨⟨rfl, rfl, rfl⟩, ?_, ?_, fun _ _ _ _ _ _ _ => rfl⟩
  · intro tileID now hiff
    simp only [handleTileClick]
    split_ifs <;> first | rfl | (exfalso; tauto)
  · intro balances userID now
    simp only [handleCashout]
    split_ifs <;> rfl

/-- The concrete session used by the C10 witness. -/
def c10Game : MinesGameState :=
  { gameID := "G1", userID := "alice", betAmount := 100, mineCount := 1,
    serverSeed := "sec", clientSeed := "c", nonce := 1, minePositions := [3],
    revealedTiles := [], currentPayout := 100, status := "ACTIVE", createdAt := 0,
    endedAt := 0 }

/-- Witness for C10 at a concrete input: two layouts agreeing on the clicked
tile's verdict produce identical click responses. -/
theorem minesState_hides_layout_witness :
    (handleTileClick { c10Game with serverSeed := "other", minePositions := [3, 7] } 5 0).1 =
      (handleTileClick c10Game 5 0).1 :=
  (minesState_hides_layout c10Game "other" [3, 7]).2.1 5 0 (by decide)

/-! ## The Plinko multiplier table (`PlinkoEngine.getMultiplier`)

One fixed 17-entry table per risk level (the 16-rows base); the landing slot
is clamped into the table bounds, and for fewer rows the entries above 10.0
are scaled toward 10.0 by `rows / 16`. -/

/-- `plinkoMultipliers[PlinkoRiskLow]`. -/
def plinkoLowMultipliers : List ℚ :=
  [16.0, 9.0, 2.0, 1.4, 1.4, 1.2, 1.1, 1.0, 0.5, 1.0, 1.1, 1.2, 1.4, 1.4, 2.0, 9.0, 16.0]

/-- `plinkoMultipliers[PlinkoRiskMedium]`. -/
def plinkoMediumMultipliers : List ℚ :=
  [110.0, 41.0, 10.0, 5.0, 3.0, 1.5, 1.0, 0.5, 0.3, 0.5, 1.0, 1.5, 3.0, 5.0, 10.0, 41.0, 110.0]

/-- `plinkoMultipliers[PlinkoRiskHigh]`. -/
def plinkoHighMultipliers : List ℚ :=
  [1000.0, 130.0, 26.0, 9.0, 4.0, 2.0, 0.2, 0.2, 0.2, 0.2, 0.2, 2.0, 4.0, 9.0, 26.0, 130.0, 1000.0]

/-- The `plinkoMultipliers` map, keyed by the risk string. -/
def plinkoMultipliers (risk : String) : Option (List ℚ) :=
  if risk = "low" then some plinkoLowMultipliers
  else if risk = "medium" then some plinkoMediumMultipliers
  else if risk = "high" then some plinkoHighMultipliers
  else none

/-- `PlinkoEngine.getMultiplier`: missing risk falls back to 1.0; the landing
slot is clamped into `[0, len-1]`; for `rows < 16` a base entry above 10.0
becomes `10 + (base - 10) * rows / 16`. -/
def getMultiplier (risk : String) (landingSlot rows : ℤ) : ℚ :=
  match plinkoMultipliers risk with
  | none => 1.0
  | some multipliers =>
    let scaleFactor : ℚ := (rows : ℚ) / 16.0
    let slot1 : ℤ := if landingSlot < 0 then 0 else landingSlot
    let slot2 : ℤ := if (multipliers.length : ℤ) ≤ slot1 then (multipliers.length : ℤ) - 1 else slot1
    let baseMultiplier := multipliers.getD slot2.toNat 0
    if rows < 16 then
      if baseMultiplier > 10.0 then 10.0 + (baseMultiplier - 10.0) * scaleFactor
      else baseMultiplier
    else baseMultiplier

/-- C9 counterexample: the risk-indexed table is not of length `rows + 1`;
for a `rows = 8` drop the low-risk table still has 17 entries, not 9. -/
theorem plinkoMultipliers_length_counterexample :
    ((plinkoMultipliers "low").getD []).length = 17 ∧
      ((plinkoMultipliers "low").getD []).length ≠ 8 + 1 := by
  decide

/-- The amended lookup: the 17-entry base table entry at the landing slot,
scaled toward 10.0 by `rows / 16` when `rows < 16` and the entry exceeds
10.0. -/
def scaleForRows (rows : ℤ) (b : ℚ) : ℚ :=
  if rows < 16 then (if b > 10.0 then 10.0 + (b - 10.0) * ((rows : ℚ) / 16.0) else b) else b

/-- C9 (amended): for every valid drop (risk in {low, medium, high}, rows in
{8, 12, 16}) and every landing slot in `[0, rows]`, the payout multiplier is
the entry of the fixed 17-entry risk table at the landing slot — no clamping
fires — scaled toward 10.0 by `rows / 16` when `rows < 16`. -/
theorem getMultiplier_table_lookup (risk : String) (rows slot : ℤ)
    (hrisk : risk = "low" ∨ risk = "medium" ∨ risk = "high")
    (hrows : rows = 8 ∨ rows = 12 ∨ rows = 16)
    (hs0 : 0 ≤ slot) (hsr : slot ≤ rows) :
    ((plinkoMultipliers risk).getD []).length = 17 ∧
      getMultiplier risk slot rows =
        scaleForRows rows (((plinkoMultipliers risk).getD []).getD slot.toNat 0) := by
  have hslot16 : slot ≤ 16 := by rcases hrows with h | h | h <;> omega
  have hns : ¬slot < 0 := not_lt.mpr hs0
  rcases hrisk with h | h | h <;> subst h
  · refine ⟨rfl, ?_⟩
    have hpm : plinkoMultipliers "low" = some plinkoLowMultipliers := rfl
    have hlen : ((plinkoLowMultipliers.length : ℕ) : ℤ) = 17 := rfl
    simp only [getMultiplier, scaleForRows, hpm, Option.getD_some, hlen]
    rw [if_neg hns, if_neg (by omega : ¬(17 : ℤ) ≤ slot)]
  · refine ⟨rfl, ?_⟩
    have hpm : plinkoMultipliers "medium" = some plinkoMediumMultipliers := rfl
    have hlen : ((plinkoMediumMultipliers.length : ℕ) : ℤ) = 17 := rfl
    simp only [getMultiplier, scaleForRows, hpm, Option.getD_some, hlen]
    rw [if_neg hns, if_neg (by omega : ¬(17 : ℤ) ≤ slot)]
  · refine ⟨rfl, ?_⟩
    have hpm : plinkoMultipliers "high" = some plinkoHighMultipliers := rfl
    have hlen : ((plinkoHighMultipliers.length : ℕ) : ℤ) = 17 := rfl
    simp only [getMultiplier, scaleForRows, hpm, Option.getD_some, hlen]
    rw [if_neg hns, if_neg (by omega : ¬(17 : ℤ) ≤ slot)]

/-- Witness for C9 at a concrete input: a high-risk, 8-row drop landing in
slot 3. -/
theorem getMultiplier_table_lookup_witness :
    ((plinkoMultipliers "high").getD []).length = 17 ∧
      getMultiplier "high" 3 8 =
        scaleForRows 8 (((plinkoMultipliers "high").getD []).getD (3 : ℤ).toNat 0) :=
  getMultiplier_table_lookup "high" 8 3 (Or.inr (Or.inr rfl)) (Or.inl rfl) (by norm_num)
    (by norm_num)


end Aviator
